import Mathlib

/-!
# Verification of the hearthlight application-model tree-synchronization core

Shallow embedding of the client-side "application model" forest logic of the
hearthlight admin console:

* `src/frontend2/src/interfaces/application_model.ts` / `node.ts` — data model
* `src/frontend2/src/api/utils.ts` — `searchApplicationModelInstance`,
  `searchApplicationModel` (the Tree Node Locator)
* `src/frontend2/src/store/admin/mutations.ts` — `initApplicationModel`
* `src/frontend2/src/store/admin/actions.ts` —
  `actionUpdateApplicationModelChildren` (the RefreshChildren action)

Modelling conventions: JavaScript numbers that hold backend ids are embedded as
`Int` (all ids in play are integers); a possibly-`null`/`undefined` id is
`Option Int`; JS arrays are `List`s; a fallible computation is `Except`.
The effects of the action (HTTP fetch, notification dispatch) are embedded by
passing the fetch outcome in as an `Except` value and reporting which effects
were performed as `Bool` flags in the result.
-/

namespace Hearthlight

/-- Record `INode` from `src/frontend2/src/interfaces/node.ts`.  `created_at` and
`updated_at` are `Date` values in TypeScript; the embedding keeps them as
plain strings, they are never inspected by the tree-sync core. -/
structure INode where
  id : Int
  parent_id : Option Int
  node_type : String
  name : String
  is_active : Bool
  depth : Int
  created_at : String
  updated_at : String
  created_by_id : Int
  updated_by_id : Int
deriving DecidableEq

/-- Record `INodeList` from `src/frontend2/src/interfaces/node.ts`: the declared shape
of a paginated node/network list, carrying the records in a field named
`nodes`. -/
structure INodeList where
  total_records : Int
  nodes : List INode
deriving DecidableEq

/-- The runtime JSON payload handed to `initApplicationModel`.  TypeScript
interfaces are not enforced at runtime, so the payload object may or may not
carry a `records` field and may or may not carry a `nodes` field; an absent
field (JS `undefined`) is `none`.  The mutation reads only `payload.records`. -/
structure JsNodeListPayload where
  total_records : Int
  records : Option (List INode)
  nodes : Option (List INode)

/-- A value of the declared `INodeList` shape, as a runtime payload: it has a
`nodes` field and no `records` field. -/
def INodeList.toJsPayload (v : INodeList) : JsNodeListPayload :=
  ⟨v.total_records, none, some v.nodes⟩

/-- Record `INodeChild` from `src/frontend2/src/interfaces/node.ts`: one element of
the `GET /api/v1/nodes/{id}/children` response. -/
structure INodeChild where
  node_id : Int
  child_type : String
  child_id : Int
  child_name : String
deriving DecidableEq

/-- Interface `ApplicationModelEntry` from
`src/frontend2/src/interfaces/application_model.ts`.  The TypeScript
declaration types `id` as `number`, but the spec allows a null id for
synthetic grouping entries and `actionUpdateApplicationModelChildren` guards
on `if (payload.id)`, so the runtime id is embedded as `Option Int`
(`none` = JS `null`/`undefined`). -/
inductive ApplicationModelEntry : Type where
  | mk (id : Option Int) (name : String) (type : String) (key : String)
       (children : List ApplicationModelEntry) : ApplicationModelEntry

namespace ApplicationModelEntry

def id : ApplicationModelEntry → Option Int
  | .mk i _ _ _ _ => i

def name : ApplicationModelEntry → String
  | .mk _ n _ _ _ => n

def type : ApplicationModelEntry → String
  | .mk _ _ t _ _ => t

def key : ApplicationModelEntry → String
  | .mk _ _ _ k _ => k

def children : ApplicationModelEntry → List ApplicationModelEntry
  | .mk _ _ _ _ c => c

end ApplicationModelEntry

/-- The root entry built for one network by `initApplicationModel`
(`src/frontend2/src/store/admin/mutations.ts`):
`id`, `type = network`, `name`, `key = network-{id}`, empty `children`.
Constructor argument order follows the interface declaration
(id, name, type, key, children). -/
def networkEntryOfINode (network : INode) : ApplicationModelEntry :=
  .mk (some network.id) network.name "network"
    ("network-" ++ toString network.id) []

/-- Mutation `initApplicationModel` from `src/frontend2/src/store/admin/mutations.ts`.
The source maps over `payload.records`; if the runtime payload has no
`records` field, `payload.records` is `undefined` and `.map` raises a
`TypeError`, embedded here as `Except.error`.  On success the returned list
wholesale replaces `state.applicationModel`. -/
def initApplicationModel (payload : JsNodeListPayload) :
    Except String (List ApplicationModelEntry) :=
  match payload.records with
  | none => .error "TypeError: payload.records is undefined"
  | some records => .ok (records.map networkEntryOfINode)

/-- JS `<` on strings compares UTF-16 code units lexicographically; for the
code points in play this is lexicographic comparison of the characters.
Defined by structural recursion (Lean core `String.ltb` is well-founded and
does not reduce in the kernel). -/
def jsCharListLtb : List Char → List Char → Bool
  | [], [] => false
  | [], _ :: _ => true
  | _ :: _, [] => false
  | a :: as2, b :: bs =>
    if a.val < b.val then true
    else if b.val < a.val then false
    else jsCharListLtb as2 bs

/-- JS string `<`. -/
def jsStringLtb (a b : String) : Bool :=
  jsCharListLtb a.toList b.toList

/-- JS string `>`: `a > b` iff `b < a`. -/
def jsStringGtb (a b : String) : Bool :=
  jsStringLtb b a

/-- The comparator passed to `response.data.sort` in
`actionUpdateApplicationModelChildren` (`src/frontend2/src/store/admin/actions.ts`),
transcribed branch by branch:

```
if (a.child_type == b.child_type) return a.child_id - b.child_id;
if (a.child_type < b.child_type) return 1;
if (b.child_type > a.child_type) return -1;
return 0;
```

Note that `b.child_type > a.child_type` is the same condition as
`a.child_type < b.child_type`, so the `-1` branch is unreachable and the
comparator returns 0 whenever `a.child_type > b.child_type`. -/
def childComparator (a b : INodeChild) : Int :=
  if a.child_type == b.child_type then a.child_id - b.child_id
  else if jsStringLtb a.child_type b.child_type then 1
  else if jsStringGtb b.child_type a.child_type then -1
  else 0

/-- The child `ApplicationModelEntry` built from one `INodeChild` in
`actionUpdateApplicationModelChildren`:
`{ id: child_id, name: child_name, type: child_type,
   key: `${child_type}-${child_id}`, children: [] }`. -/
def childEntryOfINodeChild (child : INodeChild) : ApplicationModelEntry :=
  .mk (some child.child_id) child.child_name child.child_type
    (child.child_type ++ "-" ++ toString child.child_id) []

mutual

/-- Function `searchApplicationModelInstance` from `src/frontend2/src/api/utils.ts`:
test the entry itself (`element.id == id && element.type == type`), then
search its children left to right for the first non-null result.  The JS
`element.children != null` guard is always true in the embedding because a
children field is always an array. -/
def searchApplicationModelInstance :
    ApplicationModelEntry → Int → String → Option ApplicationModelEntry
  | .mk eid ename etype ekey echildren, id, type =>
    if eid == some id && etype == type then
      some (.mk eid ename etype ekey echildren)
    else
      searchApplicationModelChildrenLoop echildren id type

/-- The `for (i = 0; result == null && i < element.children.length; i++)` loop
inside `searchApplicationModelInstance`: first non-null recursive result. -/
def searchApplicationModelChildrenLoop :
    List ApplicationModelEntry → Int → String → Option ApplicationModelEntry
  | [], _, _ => none
  | child :: rest, id, type =>
    match searchApplicationModelInstance child id type with
    | some result => some result
    | none => searchApplicationModelChildrenLoop rest id type

end

/-- Function `searchApplicationModel` from `src/frontend2/src/api/utils.ts`: the
`for (network of model)` loop returning the first truthy per-root result
(a found entry is an object, hence truthy; `null` is falsy). -/
def searchApplicationModel :
    List ApplicationModelEntry → Int → String → Option ApplicationModelEntry
  | [], _, _ => none
  | network :: rest, id, type =>
    match searchApplicationModelInstance network id type with
    | some result => some result
    | none => searchApplicationModel rest id type

mutual

/-- Depth-first pre-order flattening of one entry: the entry itself, then its
the child subtrees left to right. -/
def flattenApplicationModelEntry : ApplicationModelEntry → List ApplicationModelEntry
  | .mk eid ename etype ekey echildren =>
    .mk eid ename etype ekey echildren :: flattenApplicationModelForest echildren

/-- Depth-first pre-order flattening of a forest: each root subtree fully
before the next root. -/
def flattenApplicationModelForest : List ApplicationModelEntry → List ApplicationModelEntry
  | [] => []
  | root :: rest => flattenApplicationModelEntry root ++ flattenApplicationModelForest rest

end

/-- The match predicate of the Locator: `entry.id == id && entry.type == type`. -/
def entryMatches (id : Int) (type : String) (e : ApplicationModelEntry) : Bool :=
  e.id == some id && e.type == type

mutual

/-- Functional rendering of the in-place splice
`applicationModelEntry.children = children` performed by
`actionUpdateApplicationModelChildren` through the live alias returned by the
Locator: replace the children of the first entry, in the traversal
order, that matches `(id, type)`; `none` when the subtree holds no match. -/
def setChildrenInstance :
    ApplicationModelEntry → Int → String → List ApplicationModelEntry →
      Option ApplicationModelEntry
  | .mk eid ename etype ekey echildren, id, type, newChildren =>
    if eid == some id && etype == type then
      some (.mk eid ename etype ekey newChildren)
    else
      match setChildrenLoop echildren id type newChildren with
      | some updated => some (.mk eid ename etype ekey updated)
      | none => none

/-- Children-list part of `setChildrenInstance`: splice into the first child
subtree containing a match, leaving the rest untouched. -/
def setChildrenLoop :
    List ApplicationModelEntry → Int → String → List ApplicationModelEntry →
      Option (List ApplicationModelEntry)
  | [], _, _, _ => none
  | child :: rest, id, type, newChildren =>
    match setChildrenInstance child id type newChildren with
    | some updated => some (updated :: rest)
    | none =>
      match setChildrenLoop rest id type newChildren with
      | some updatedRest => some (child :: updatedRest)
      | none => none

end

/-- Splice at forest level: the forest after
`applicationModelEntry.children = children` resolved against the first match
in the forest; the forest is returned unchanged when there is no match (the
source never reaches the assignment in that case). -/
def setApplicationModelChildren (model : List ApplicationModelEntry) (id : Int)
    (type : String) (newChildren : List ApplicationModelEntry) :
    List ApplicationModelEntry :=
  match setChildrenLoop model id type newChildren with
  | some updated => updated
  | none => model

/-- Model of `Array.prototype.sort(comparefn)` as a stable merge sort that
places `a` no later than `b` when `comparefn a b ≤ 0`.  ECMA-262 fixes the
result only for consistent comparators; `childComparator` is not consistent
(see the C1 theorem below), so engines may and do return other orders for it.
No theorem in this file relies on the order this model produces. -/
def jsArraySort (comparefn : INodeChild → INodeChild → Int)
    (l : List INodeChild) : List INodeChild :=
  l.mergeSort (fun a b => decide (comparefn a b ≤ 0))

/-- Outcome of one `actionUpdateApplicationModelChildren` run:
the forest committed back to the store, whether the child-list fetch was
issued, and whether an error was routed to `dispatchCheckApiError`
(the notification surface). -/
structure RefreshChildrenResult where
  applicationModel : List ApplicationModelEntry
  fetchIssued : Bool
  errorNotified : Bool

/-- Action `actionUpdateApplicationModelChildren` from
`src/frontend2/src/store/admin/actions.ts`.

* `payload` is the target entry; the source guards with `if (payload.id)`,
  JS truthiness of a number-or-null: `null`/`undefined` and `0` are falsy
  (`NaN`, also falsy, is not representable for an integer id).
* `fetchResult` stands for the outcome of
  `api.getNodeChildren(token, payload.id)`: the awaited response data, or the
  transport/backend error the `catch` block receives.
* `applicationModel` is the forest read from the store after the fetch
  resolves (it may differ from the forest at call time if
  `initApplicationModel` ran while the fetch was pending).

In the source the `children` field of the found entry is assigned through the live
alias and the same (mutated) array is committed back with
`commitSetApplicationModel`; errors are caught and forwarded to
`dispatchCheckApiError`, never rethrown. -/
def actionUpdateApplicationModelChildren (payload : ApplicationModelEntry)
    (fetchResult : Except String (List INodeChild))
    (applicationModel : List ApplicationModelEntry) : RefreshChildrenResult :=
  match payload.id with
  | none => ⟨applicationModel, false, false⟩
  | some n =>
    if n = 0 then ⟨applicationModel, false, false⟩
    else
      match fetchResult with
      | .error _ => ⟨applicationModel, true, true⟩
      | .ok responseData =>
        match searchApplicationModel applicationModel n payload.type with
        | none => ⟨applicationModel, true, false⟩
        | some _ =>
          let sorted_result := jsArraySort childComparator responseData
          let children := sorted_result.map childEntryOfINodeChild
          ⟨setApplicationModelChildren applicationModel n payload.type children,
            true, false⟩

mutual

/-- State-threading rendering of `searchApplicationModelInstance`: alongside
the search result it returns the entry as it stands after the call.  The
source performs no assignment anywhere in the function — every entry is
rebuilt exactly as traversed — so this records what the call leaves behind. -/
def searchApplicationModelInstanceSt :
    ApplicationModelEntry → Int → String →
      Option ApplicationModelEntry × ApplicationModelEntry
  | .mk eid ename etype ekey echildren, id, type =>
    if eid == some id && etype == type then
      (some (.mk eid ename etype ekey echildren), .mk eid ename etype ekey echildren)
    else
      match searchApplicationModelChildrenLoopSt echildren id type with
      | (result, echildren2) => (result, .mk eid ename etype ekey echildren2)

/-- State-threading rendering of the children loop; entries past the first
match are never visited and are passed through as they were. -/
def searchApplicationModelChildrenLoopSt :
    List ApplicationModelEntry → Int → String →
      Option ApplicationModelEntry × List ApplicationModelEntry
  | [], _, _ => (none, [])
  | child :: rest, id, type =>
    match searchApplicationModelInstanceSt child id type with
    | (some result, child2) => (some result, child2 :: rest)
    | (none, child2) =>
      match searchApplicationModelChildrenLoopSt rest id type with
      | (result, rest2) => (result, child2 :: rest2)

end

/-- State-threading rendering of `searchApplicationModel` over the roots. -/
def searchApplicationModelSt :
    List ApplicationModelEntry → Int → String →
      Option ApplicationModelEntry × List ApplicationModelEntry
  | [], _, _ => (none, [])
  | network :: rest, id, type =>
    match searchApplicationModelInstanceSt network id type with
    | (some result, network2) => (some result, network2 :: rest)
    | (none, network2) =>
      match searchApplicationModelSt rest id type with
      | (result, rest2) => (result, network2 :: rest2)

/-- Run detection of the V8 TimSort (`countRunAndMakeAscending`): a list counts as
one already-ascending run when every adjacent comparison
`comparefn(next, prev)` is ≥ 0; such a run is returned unchanged when it
covers the whole array. -/
def jsNonDescendingRun (comparefn : INodeChild → INodeChild → Int) :
    List INodeChild → Bool
  | [] => true
  | [_] => true
  | a :: b :: rest =>
    decide (0 ≤ comparefn b a) && jsNonDescendingRun comparefn (b :: rest)

/-! ## Concrete sample data used by witnesses -/

/-- Default entry used with `List.getD` in indexed statements. -/
def blankEntry : ApplicationModelEntry := .mk none "" "" "" []

/-- Default record used with `List.getD` in indexed statements. -/
def blankINode : INode := ⟨0, none, "", "", false, 0, "", "", 0, 0⟩

def sampleNode1 : INode := ⟨7, none, "network", "Net7", true, 0, "", "", 1, 1⟩

def sampleNode2 : INode := ⟨9, none, "network", "Net9", true, 0, "", "", 1, 1⟩

def sampleLeaf : ApplicationModelEntry := .mk (some 5) "Alpha" "node" "node-5" []

def sampleRoot1 : ApplicationModelEntry :=
  .mk (some 7) "Net7" "network" "network-7" [sampleLeaf]

def sampleRoot2 : ApplicationModelEntry := .mk (some 9) "Net9" "network" "network-9" []

def sampleForest : List ApplicationModelEntry := [sampleRoot1, sampleRoot2]

/-- The children response of the worked example in the spec:
`[{id:5,type:"node",name:"A"}, {id:2,type:"user_group",name:"B"},
{id:9,type:"node",name:"C"}]`; the parent `node_id` plays no role in the
sort. -/
def exampleChildA : INodeChild := ⟨1, "node", 5, "A"⟩

def exampleChildB : INodeChild := ⟨1, "user_group", 2, "B"⟩

def exampleChildC : INodeChild := ⟨1, "node", 9, "C"⟩

def exampleResponse : List INodeChild := [exampleChildA, exampleChildB, exampleChildC]

/-- The order the spec claims for `exampleResponse`: `[B, A, C]`. -/
def exampleClaimedOrder : List INodeChild := [exampleChildB, exampleChildA, exampleChildC]

/-! ## Lemmas relating the Locator to the pre-order entry list -/

mutual

theorem searchApplicationModelInstance_eq_find :
    ∀ (e : ApplicationModelEntry) (id : Int) (type : String),
      searchApplicationModelInstance e id type
        = (flattenApplicationModelEntry e).find? (entryMatches id type)
  | .mk eid ename etype ekey echildren, id, type => by
    rw [searchApplicationModelInstance, flattenApplicationModelEntry, List.find?]
    by_cases h : (eid == some id && etype == type) = true
    · have hm : entryMatches id type (.mk eid ename etype ekey echildren) = true := by
        simpa [entryMatches, ApplicationModelEntry.id, ApplicationModelEntry.type] using h
      simp [h, hm]
    · have hm : entryMatches id type (.mk eid ename etype ekey echildren) = false := by
        simp only [entryMatches, ApplicationModelEntry.id, ApplicationModelEntry.type]
        simpa using h
      simp only [h, if_false, hm]
      exact searchApplicationModelChildrenLoop_eq_find echildren id type

theorem searchApplicationModelChildrenLoop_eq_find :
    ∀ (l : List ApplicationModelEntry) (id : Int) (type : String),
      searchApplicationModelChildrenLoop l id type
        = (flattenApplicationModelForest l).find? (entryMatches id type)
  | [], _, _ => by
    rw [searchApplicationModelChildrenLoop, flattenApplicationModelForest]; rfl
  | child :: rest, id, type => by
    rw [searchApplicationModelChildrenLoop, flattenApplicationModelForest,
      List.find?_append, searchApplicationModelInstance_eq_find child id type,
      searchApplicationModelChildrenLoop_eq_find rest id type]
    cases (flattenApplicationModelEntry child).find? (entryMatches id type) <;>
      simp [Option.orElse]

end

theorem searchApplicationModel_eq_find (model : List ApplicationModelEntry)
    (id : Int) (type : String) :
    searchApplicationModel model id type
      = (flattenApplicationModelForest model).find? (entryMatches id type) := by
  induction model with
  | nil => rw [searchApplicationModel, flattenApplicationModelForest]; rfl
  | cons network rest ih =>
    rw [searchApplicationModel, flattenApplicationModelForest, List.find?_append,
      searchApplicationModelInstance_eq_find network id type, ih]
    cases (flattenApplicationModelEntry network).find? (entryMatches id type) <;>
      simp [Option.orElse]

theorem find?_of_filter_singleton {α : Type} (p : α → Bool) (l : List α) :
    ∀ e : α, l.filter p = [e] → l.find? p = some e := by
  induction l with
  | nil => intro e h; simp at h
  | cons a t ih =>
    intro e h
    by_cases ha : p a = true
    · rw [List.filter_cons_of_pos ha] at h
      injection h with h1 h2
      rw [h1] at ha ⊢
      exact List.find?_cons_of_pos t ha
    · have ha2 : ¬(p a = true) := ha
      rw [List.filter_cons_of_neg (by simpa using ha2)] at h
      rw [List.find?_cons_of_neg t (by simpa using ha2)]
      exact ih e h

theorem find?_of_filter_nil {α : Type} (p : α → Bool) (l : List α)
    (h : l.filter p = []) : l.find? p = none := by
  rw [List.find?_eq_none]
  intro x hx
  have := List.filter_eq_nil_iff.mp h x hx
  simpa using this

/-! ## Lemmas: the state-threading Locator returns its input untouched -/

mutual

theorem searchApplicationModelInstanceSt_spec :
    ∀ (e : ApplicationModelEntry) (id : Int) (type : String),
      searchApplicationModelInstanceSt e id type
        = (searchApplicationModelInstance e id type, e)
  | .mk eid ename etype ekey echildren, id, type => by
    rw [searchApplicationModelInstanceSt, searchApplicationModelInstance,
      searchApplicationModelChildrenLoopSt_spec echildren id type]
    by_cases h : (eid == some id && etype == type) = true
    · simp [h]
    · simp [h]

theorem searchApplicationModelChildrenLoopSt_spec :
    ∀ (l : List ApplicationModelEntry) (id : Int) (type : String),
      searchApplicationModelChildrenLoopSt l id type
        = (searchApplicationModelChildrenLoop l id type, l)
  | [], _, _ => by
    rw [searchApplicationModelChildrenLoopSt, searchApplicationModelChildrenLoop]
  | child :: rest, id, type => by
    rw [searchApplicationModelChildrenLoopSt, searchApplicationModelChildrenLoop,
      searchApplicationModelInstanceSt_spec child id type,
      searchApplicationModelChildrenLoopSt_spec rest id type]
    cases searchApplicationModelInstance child id type <;> simp

end

theorem searchApplicationModelSt_spec (model : List ApplicationModelEntry)
    (id : Int) (type : String) :
    searchApplicationModelSt model id type
      = (searchApplicationModel model id type, model) := by
  induction model with
  | nil => rw [searchApplicationModelSt, searchApplicationModel]
  | cons network rest ih =>
    rw [searchApplicationModelSt, searchApplicationModel,
      searchApplicationModelInstanceSt_spec network id type, ih]
    cases searchApplicationModelInstance network id type <;> simp

/-! ## Claim theorems -/

/-- C1 (code bug in the sort comparator): the comparator of
`actionUpdateApplicationModelChildren` cannot deliver the claimed
"`child_type` descending, `child_id` ascending" order.  On the very example of the spec, `compare(B, A) = 0` while `compare(A, B) = 1`: the comparator is not
a consistent comparison function, because its `return -1` branch tests
`b.child_type > a.child_type` — the same condition as the already-handled
`a.child_type < b.child_type` — and so falls through to `return 0` whenever
`a.child_type > b.child_type`.  ECMA-262 leaves the sort order
implementation-defined for an inconsistent comparator, and concretely a
run-detecting engine sort (the V8 TimSort) sees the example response as a
single non-descending run (every adjacent `compare(next, prev)` is ≥ 0) and
returns it unchanged, `[A, B, C]`, not the claimed `[B, A, C]`. -/
theorem childComparator_breaks_descending_sort_claim :
    childComparator exampleChildB exampleChildA = 0 ∧
    childComparator exampleChildA exampleChildB = 1 ∧
    jsNonDescendingRun childComparator exampleResponse = true ∧
    exampleResponse ≠ exampleClaimedOrder := by
  decide

/-- C2: on any forest, if `(id, type)` matches exactly one entry of the
pre-order entry list, the Locator returns that entry; if it matches none, the
Locator returns `none` (and, being a total function of the forest, it cannot
throw). -/
theorem searchApplicationModel_unique_and_absent
    (model : List ApplicationModelEntry) (id : Int) (type : String) :
    (∀ e : ApplicationModelEntry,
      (flattenApplicationModelForest model).filter (entryMatches id type) = [e] →
        searchApplicationModel model id type = some e) ∧
    ((flattenApplicationModelForest model).filter (entryMatches id type) = [] →
        searchApplicationModel model id type = none) := by
  constructor
  · intro e h
    rw [searchApplicationModel_eq_find]
    exact find?_of_filter_singleton _ _ e h
  · intro h
    rw [searchApplicationModel_eq_find]
    exact find?_of_filter_nil _ _ h

theorem searchApplicationModel_unique_and_absent_witness :
    searchApplicationModel sampleForest 5 "node" = some sampleLeaf ∧
    searchApplicationModel sampleForest 5 "user_group" = none :=
  ⟨(searchApplicationModel_unique_and_absent sampleForest 5 "node").1 sampleLeaf rfl,
    (searchApplicationModel_unique_and_absent sampleForest 5 "user_group").2 rfl⟩

/-- C3: when the fetched children arrive but the Locator no longer finds the
target `(id, type)` in the current forest — in particular after
`initApplicationModel` rebuilt the forest while the fetch was pending — the
children are discarded, the committed forest is the unchanged input forest,
and no error is raised or notified (the model is a total function). -/
theorem refreshChildren_stale_target_discards_children (i : Int) (hi : i ≠ 0)
    (name type key : String) (children : List ApplicationModelEntry)
    (responseData : List INodeChild) (model : List ApplicationModelEntry)
    (hsearch : searchApplicationModel model i type = none) :
    actionUpdateApplicationModelChildren (.mk (some i) name type key children)
        (.ok responseData) model
      = ⟨model, true, false⟩ := by
  simp [actionUpdateApplicationModelChildren, ApplicationModelEntry.id,
    ApplicationModelEntry.type, hi, hsearch]

theorem refreshChildren_stale_target_discards_children_witness :
    actionUpdateApplicationModelChildren (.mk (some 5) "Alpha" "node" "node-5" [])
        (.ok exampleResponse) ([sampleNode1, sampleNode2].map networkEntryOfINode)
      = ⟨[sampleNode1, sampleNode2].map networkEntryOfINode, true, false⟩ :=
  refreshChildren_stale_target_discards_children 5 (by decide) "Alpha" "node"
    "node-5" [] exampleResponse ([sampleNode1, sampleNode2].map networkEntryOfINode) rfl

/-- C4: `initApplicationModel` replaces the whole forest with one root per
record of the list it maps over, in input order: the result has the same
length, and the i-th root carries the id and name of the i-th network, type
`network`, key `network-{id}`, and no children. -/
theorem initApplicationModel_one_root_per_network (tr : Int)
    (nodesField : Option (List INode)) (l : List INode)
    (roots : List ApplicationModelEntry)
    (hinit : initApplicationModel ⟨tr, some l, nodesField⟩ = .ok roots) :
    roots.length = l.length ∧
    ∀ i : Nat, i < l.length →
      (roots.getD i blankEntry).id = some (l.getD i blankINode).id ∧
      (roots.getD i blankEntry).type = "network" ∧
      (roots.getD i blankEntry).name = (l.getD i blankINode).name ∧
      (roots.getD i blankEntry).key = "network-" ++ toString (l.getD i blankINode).id ∧
      (roots.getD i blankEntry).children = [] := by
  have hroots : roots = l.map networkEntryOfINode := by
    simpa [initApplicationModel] using hinit.symm
  subst hroots
  refine ⟨List.length_map l networkEntryOfINode, ?_⟩
  intro i hil
  have hset : (l.map networkEntryOfINode).getD i blankEntry
      = networkEntryOfINode (l.getD i blankINode) := by
    rw [List.getD_eq_getElem _ _ (by simpa using hil),
      List.getD_eq_getElem _ _ hil, List.getElem_map]
  rw [hset]
  exact ⟨rfl, rfl, rfl, rfl, rfl⟩

theorem initApplicationModel_one_root_per_network_witness :
    ([sampleNode1, sampleNode2].map networkEntryOfINode).length
        = ([sampleNode1, sampleNode2] : List INode).length ∧
    (([sampleNode1, sampleNode2].map networkEntryOfINode).getD 0 blankEntry).id
        = some (([sampleNode1, sampleNode2] : List INode).getD 0 blankINode).id ∧
    (([sampleNode1, sampleNode2].map networkEntryOfINode).getD 0 blankEntry).type
        = "network" ∧
    (([sampleNode1, sampleNode2].map networkEntryOfINode).getD 0 blankEntry).name
        = (([sampleNode1, sampleNode2] : List INode).getD 0 blankINode).name ∧
    (([sampleNode1, sampleNode2].map networkEntryOfINode).getD 0 blankEntry).key
        = "network-" ++ toString (([sampleNode1, sampleNode2] : List INode).getD 0 blankINode).id ∧
    (([sampleNode1, sampleNode2].map networkEntryOfINode).getD 0 blankEntry).children
        = [] := by
  have h := initApplicationModel_one_root_per_network 2 none [sampleNode1, sampleNode2]
    ([sampleNode1, sampleNode2].map networkEntryOfINode) rfl
  exact ⟨h.1, h.2 0 (by decide)⟩

/-- C5: the Locator returns exactly the first match of the depth-first
pre-order entry list — each root subtree is flattened fully before the next
root, and an entry precedes its children in the flattening — so with several
matches present the earliest one in that traversal order is returned. -/
theorem searchApplicationModel_preorder_first_match
    (model : List ApplicationModelEntry) (id : Int) (type : String) :
    searchApplicationModel model id type
      = (flattenApplicationModelForest model).find? (entryMatches id type) :=
  searchApplicationModel_eq_find model id type

/-- C6: a `RefreshChildren` call whose target entry has a null id issues no
fetch and leaves the forest unchanged (`if (payload.id)` fails for `null`). -/
theorem refreshChildren_null_id_noop (name type key : String)
    (children : List ApplicationModelEntry)
    (fetchResult : Except String (List INodeChild))
    (model : List ApplicationModelEntry) :
    actionUpdateApplicationModelChildren (.mk none name type key children)
        fetchResult model
      = ⟨model, false, false⟩ := rfl

/-- C7: when the child-list fetch fails, the error is caught and routed to
`dispatchCheckApiError` (the notification surface) rather than propagated —
the model returns normally — and the committed forest is the unchanged input
forest. -/
theorem refreshChildren_fetch_error_leaves_forest (i : Int) (hi : i ≠ 0)
    (name type key : String) (children : List ApplicationModelEntry)
    (err : String) (model : List ApplicationModelEntry) :
    actionUpdateApplicationModelChildren (.mk (some i) name type key children)
        (.error err) model
      = ⟨model, true, true⟩ := by
  simp [actionUpdateApplicationModelChildren, ApplicationModelEntry.id, hi]

theorem refreshChildren_fetch_error_leaves_forest_witness :
    actionUpdateApplicationModelChildren (.mk (some 1) "Net" "network" "network-1" [])
        (.error "HTTP 500") sampleForest
      = ⟨sampleForest, true, true⟩ :=
  refreshChildren_fetch_error_leaves_forest 1 (by decide) "Net" "network"
    "network-1" [] "HTTP 500" sampleForest

/-- C8: the Locator does not mutate the forest: the state-threading rendering,
which returns the forest as the call leaves it, returns the input forest
itself (structural equality), along with the same result as the Locator. -/
theorem searchApplicationModel_does_not_mutate
    (model : List ApplicationModelEntry) (id : Int) (type : String) :
    (searchApplicationModelSt model id type).2 = model ∧
    (searchApplicationModelSt model id type).1
      = searchApplicationModel model id type := by
  rw [searchApplicationModelSt_spec]
  exact ⟨rfl, rfl⟩

/-- C9: `initApplicationModel` maps over `payload.records`, but the declared
input type `INodeList` carries the list in a field named `nodes`: on every
runtime value of the declared `INodeList` shape (a `nodes` field, no
`records` field) the mutation fails with a `TypeError` instead of building
one root per network, and it can only succeed on payloads that do carry a
`records` field. -/
theorem initApplicationModel_requires_records_field :
    (∀ v : INodeList,
      initApplicationModel v.toJsPayload
        = .error "TypeError: payload.records is undefined") ∧
    (∀ (p : JsNodeListPayload) (roots : List ApplicationModelEntry),
      initApplicationModel p = .ok roots → p.records ≠ none) := by
  constructor
  · intro v
    rfl
  · intro p roots h hrec
    simp [initApplicationModel, hrec] at h

theorem initApplicationModel_requires_records_field_witness :
    initApplicationModel (INodeList.mk 0 [sampleNode1]).toJsPayload
      = .error "TypeError: payload.records is undefined" ∧
    (JsNodeListPayload.mk 0 (some []) none).records ≠ none :=
  ⟨initApplicationModel_requires_records_field.1 ⟨0, [sampleNode1]⟩,
    initApplicationModel_requires_records_field.2 ⟨0, some [], none⟩ [] rfl⟩

/-- C10: the `if (payload.id)` guard tests JavaScript truthiness, and the
number `0` is falsy, so a target entry with id `0` — a non-null id — is
treated exactly like a null id: no fetch is issued and the forest is left
unchanged. -/
theorem refreshChildren_zero_id_treated_as_null (name type key : String)
    (children : List ApplicationModelEntry)
    (fetchResult : Except String (List INodeChild))
    (model : List ApplicationModelEntry) :
    actionUpdateApplicationModelChildren (.mk (some 0) name type key children)
        fetchResult model
      = ⟨model, false, false⟩ := by
  simp [actionUpdateApplicationModelChildren, ApplicationModelEntry.id]

end Hearthlight
